import Mathlib

/-
Formal model of the gitrama-mcp adapter (src/src/gitrama_mcp/server.py).

The adapter has two layers:
- a Process Runner (`_run_gtr`): spawns the external `gtr` CLI, waits with a
  timeout, decodes and trims the captured streams, and classifies the outcome
  (normal exit / timeout / executable not found);
- a Tool Registry/Dispatcher: one handler per capability, each building an
  argument vector from its parameters, delegating to the runner, and
  formatting the result via `_format_result`.

The subprocess itself is external, so the runner is embedded as a pure
function from the observable outcome of the spawned process (exit with code
and raw output bytes, timeout, or executable-not-found) to the result
dictionary the Python code constructs on that path.  Standard-library calls
(`bytes.decode("utf-8", errors="replace")`, `str.strip()`, `str.split()`,
`" ".join`) are modelled by executable Lean functions below.
-/

set_option autoImplicit false
set_option linter.unusedVariables false

/-- Result dictionary returned by `_run_gtr` (server.py lines 47-92):
keys `success`, `stdout`, `stderr`, `returncode`. -/
structure ExecutionResult where
  success : Bool
  stdout : String
  stderr : String
  returncode : Int
deriving Repr, DecidableEq

/-- Observable outcome of the spawned subprocess, as distinguished by
`_run_gtr`: the process exits with a return code and raw stdout/stderr
bytes; or `asyncio.wait_for` times out; or `create_subprocess_exec`
raises `FileNotFoundError` because the executable cannot be located. -/
inductive ProcOutcome where
  | exited (returncode : Int) (stdoutBytes stderrBytes : List Nat)
  | timeout
  | notFound
deriving Repr, DecidableEq

/-- The U+FFFD replacement character used by `errors="replace"` decoding. -/
def replChar : Char := Char.ofNat 0xFFFD

/-- Recursion worker for `utf8Chars`.  Every step consumes at least one
byte, so running it with fuel equal to the byte count is exhaustive; fuel
only serves to make the recursion structural. -/
def utf8CharsFuel : Nat → List Nat → List Char
  | 0, _ => []
  | _, [] => []
  | fuel + 1, b :: bs =>
    if b < 0x80 then
      Char.ofNat b :: utf8CharsFuel fuel bs
    else if 0xC2 ≤ b ∧ b ≤ 0xDF then
      match bs with
      | [] => [replChar]
      | c1 :: bs1 =>
        if 0x80 ≤ c1 ∧ c1 ≤ 0xBF then
          Char.ofNat ((b - 0xC0) * 0x40 + (c1 - 0x80)) :: utf8CharsFuel fuel bs1
        else
          replChar :: utf8CharsFuel fuel bs
    else if 0xE0 ≤ b ∧ b ≤ 0xEF then
      match bs with
      | [] => [replChar]
      | c1 :: bs1 =>
        if (if b = 0xE0 then 0xA0 else 0x80) ≤ c1 ∧ c1 ≤ (if b = 0xED then 0x9F else 0xBF) then
          match bs1 with
          | [] => [replChar]
          | c2 :: bs2 =>
            if 0x80 ≤ c2 ∧ c2 ≤ 0xBF then
              Char.ofNat ((b - 0xE0) * 0x1000 + (c1 - 0x80) * 0x40 + (c2 - 0x80)) :: utf8CharsFuel fuel bs2
            else
              replChar :: utf8CharsFuel fuel bs1
        else
          replChar :: utf8CharsFuel fuel bs
    else if 0xF0 ≤ b ∧ b ≤ 0xF4 then
      match bs with
      | [] => [replChar]
      | c1 :: bs1 =>
        if (if b = 0xF0 then 0x90 else 0x80) ≤ c1 ∧ c1 ≤ (if b = 0xF4 then 0x8F else 0xBF) then
          match bs1 with
          | [] => [replChar]
          | c2 :: bs2 =>
            if 0x80 ≤ c2 ∧ c2 ≤ 0xBF then
              match bs2 with
              | [] => [replChar]
              | c3 :: bs3 =>
                if 0x80 ≤ c3 ∧ c3 ≤ 0xBF then
                  Char.ofNat ((b - 0xF0) * 0x40000 + (c1 - 0x80) * 0x1000
                      + (c2 - 0x80) * 0x40 + (c3 - 0x80)) :: utf8CharsFuel fuel bs3
                else
                  replChar :: utf8CharsFuel fuel bs2
            else
              replChar :: utf8CharsFuel fuel bs1
        else
          replChar :: utf8CharsFuel fuel bs
    else
      replChar :: utf8CharsFuel fuel bs

/-- Model of CPython `bytes.decode("utf-8", errors="replace")` at the
character level: UTF-8 decoding where each maximal invalid subpart is
replaced by one U+FFFD instead of raising.  Total on every byte list, so
decoding never fails. -/
def utf8Chars (bs : List Nat) : List Char := utf8CharsFuel bs.length bs

/-- Decode a byte list to a `String`, replacing invalid UTF-8 rather than
failing (model of `bytes.decode("utf-8", errors="replace")`). -/
def utf8DecodeReplace (bs : List Nat) : String := String.mk (utf8Chars bs)

/-- Drop the elements satisfying `p` from both ends of a list: the list-level
content of Python `str.strip()`. -/
def stripEnds {α : Type} (p : α → Bool) (l : List α) : List α :=
  ((l.dropWhile p).reverse.dropWhile p).reverse

/-- Model of Python `str.strip()` with no argument: remove leading and
trailing whitespace characters. -/
def pyStrip (s : String) : String := String.mk (stripEnds Char.isWhitespace s.data)

/-- Accumulator pass behind `str.split()`: whitespace runs separate words,
leading/trailing whitespace produces no empty words.  `acc` holds the
current word reversed. -/
def splitWsAux : List Char → List Char → List (List Char)
  | [], acc => if acc = [] then [] else [acc.reverse]
  | c :: rest, acc =>
    if c.isWhitespace then
      if acc = [] then splitWsAux rest [] else acc.reverse :: splitWsAux rest []
    else
      splitWsAux rest (c :: acc)

/-- Model of Python `str.split()` with no argument: split on runs of
whitespace, discarding empty words. -/
def pySplit (s : String) : List String := (splitWsAux s.data []).map String.mk

/-- Model of `" ".join(cmd)` as used in the timeout message. -/
def joinSpace (parts : List String) : String := String.intercalate " " parts

/-- Model of `_run_gtr` (server.py lines 47-92) as a function of the
subprocess outcome.  The `cmd` is `["gtr"] + args`.
- normal exit: `success = (returncode == 0)`; stdout/stderr are decoded with
  replacement and stripped (lines 65-75);
- `asyncio.TimeoutError` (lines 76-82): error dict naming the command and the
  timeout in seconds;
- `FileNotFoundError` (lines 83-92): error dict with the installation hint.
All three paths return a dict; none raises. -/
def run_gtr (args : List String) (timeout : Nat) (outcome : ProcOutcome) : ExecutionResult :=
  let cmd := ["gtr"] ++ args
  match outcome with
  | .exited rc outB errB =>
    { success := rc == 0
      stdout := pyStrip (utf8DecodeReplace outB)
      stderr := pyStrip (utf8DecodeReplace errB)
      returncode := rc }
  | .timeout =>
    { success := false
      stdout := ""
      stderr := "Command timed out after " ++ toString timeout ++ "s: " ++ joinSpace cmd
      returncode := -1 }
  | .notFound =>
    { success := false
      stdout := ""
      stderr := "gitrama CLI not found. Install with: pip install gitrama\nDocs: https://gitrama.ai"
      returncode := -1 }

/-- Whether the `asyncio.TimeoutError` handler of `_run_gtr` (server.py
lines 76-82) issues any call that terminates the child process
(`proc.kill()`, `proc.terminate()`, `proc.send_signal(...)`).  The handler
body consists solely of constructing and returning the result dict, so no
such call occurs: `asyncio.wait_for` cancels `proc.communicate()` but does
not kill the spawned process, which is abandoned still running. -/
def timeout_handler_kills_child : Bool := false

/-- Model of `_format_result` (server.py lines 95-101).  Python truthiness
on a string is modelled as `≠ ""`. -/
def format_result (result : ExecutionResult) (context : String) : String :=
  if result.success then
    if result.stdout ≠ "" then result.stdout
    else "✅ " ++ (if context ≠ "" then context else "Done")
  else
    "❌ Error: " ++
      (if result.stderr ≠ "" then result.stderr
       else if result.stdout ≠ "" then result.stdout else "Unknown error")

/-- Argument vector built by `gitrama_commit` (server.py lines 128-134):
`--type` is always passed; `--context`/`--model` only when truthy; `--yes`
is always appended last. -/
def gitrama_commit_args (message_type context model : String) : List String :=
  (["commit", "--type", message_type]
      ++ (if context ≠ "" then ["--context", context] else [])
      ++ (if model ≠ "" then ["--model", model] else []))
    ++ ["--yes"]

/-- Tool `gitrama_commit` (server.py lines 109-137): build the vector, run
with the default 120s timeout, format with context string `Commit created`. -/
def gitrama_commit (message_type context model : String) (o : ProcOutcome) : String :=
  format_result (run_gtr (gitrama_commit_args message_type context model) 120 o)
    "Commit created"

/-- Argument vector of `gitrama_commit_quality` (server.py lines 191-205):
the count is clamped into `[1, 50]` and always passed. -/
def gitrama_commit_quality_args (count : Int) : List String :=
  ["commit", "--quality", "--count", toString (min (max count 1) 50)]

/-- Argument vector built by `gitrama_ask` (server.py lines 240-244):
the question is positional; `--scope` whenever scope differs from `auto`;
`--model` only when truthy. -/
def gitrama_ask_args (question scope model : String) : List String :=
  (["ask", question]
      ++ (if scope ≠ "auto" then ["--scope", scope] else []))
    ++ (if model ≠ "" then ["--model", model] else [])

/-- Tool `gitrama_ask` (server.py lines 213-246): runs with the longer
180s timeout. -/
def gitrama_ask (question scope model : String) (o : ProcOutcome) : String :=
  format_result (run_gtr (gitrama_ask_args question scope model) 180 o)
    "Question answered"

/-- Argument vector built by `gitrama_branch` (server.py lines 268-270):
the name is positional; `--base` only when truthy. -/
def gitrama_branch_args (name base : String) : List String :=
  ["branch", name] ++ (if base ≠ "" then ["--base", base] else [])

/-- Tool `gitrama_branch` (server.py lines 254-272). -/
def gitrama_branch (name base : String) (o : ProcOutcome) : String :=
  format_result (run_gtr (gitrama_branch_args name base) 120 o)
    ("Branch \x27" ++ name ++ "\x27 created")

/-- Argument vector built by `gitrama_branch_suggest` (server.py
lines 295-297). -/
def gitrama_branch_suggest_args (description model : String) : List String :=
  ["branch", "--suggest", description] ++ (if model ≠ "" then ["--model", model] else [])

/-- Argument vector built by `gitrama_pr` (server.py lines 322-326). -/
def gitrama_pr_args (base model : String) : List String :=
  (["pr"] ++ (if base ≠ "" then ["--base", base] else []))
    ++ (if model ≠ "" then ["--model", model] else [])

/-- Argument vector built by `gitrama_changelog` (server.py lines 355-363). -/
def gitrama_changelog_args (sinceRef untilRef fmt model : String) : List String :=
  (((["changelog"]
      ++ (if sinceRef ≠ "" then ["--since", sinceRef] else []))
      ++ (if untilRef ≠ "" then ["--until", untilRef] else []))
      ++ (if fmt ≠ "" then ["--format", fmt] else []))
    ++ (if model ≠ "" then ["--model", model] else [])

/-- Argument vector of `gitrama_stream_status` (server.py line 381). -/
def gitrama_stream_status_args : List String := ["stream", "status"]

/-- Argument vector built by `gitrama_stream_switch` (server.py
lines 404-406). -/
def gitrama_stream_switch_args (name description : String) : List String :=
  ["stream", "switch", name]
    ++ (if description ≠ "" then ["--description", description] else [])

/-- Argument vector of `gitrama_stream_list` (server.py line 423). -/
def gitrama_stream_list_args : List String := ["stream", "list"]

/-- Outcome of the staging step of `gitrama_stage_and_commit`: either
`create_subprocess_exec` for `git add` launches (its output and return code
are then awaited but discarded), or launching raises an exception rendered
as a string. -/
inductive StageOutcome where
  | launched (stdoutBytes stderrBytes : List Nat) (returncode : Int)
  | launchFailed (exc : String)
deriving Repr, DecidableEq

/-- File list staged by `gitrama_stage_and_commit` (server.py line 165):
`files.split() if files != "." else ["."]`. -/
def stage_file_list (files : String) : List String :=
  if files ≠ "." then pySplit files else ["."]

/-- Staging command built at server.py line 166: `["git", "add"] + file_list`. -/
def stage_cmd (files : String) : List String := ["git", "add"] ++ stage_file_list files

/-- Tool `gitrama_stage_and_commit` (server.py lines 145-183): if the
staging subprocess cannot be launched, short-circuit with the staging
error; otherwise ignore the staging output entirely and delegate to
`gitrama_commit`. -/
def gitrama_stage_and_commit (files message_type context model : String)
    (stage : StageOutcome) (commitOutcome : ProcOutcome) : String :=
  match stage with
  | .launchFailed e => "❌ Failed to stage files: " ++ e
  | .launched _ _ _ => gitrama_commit message_type context model commitOutcome

/-- ASCII byte encoding of a string, for describing concrete subprocess
stdout in examples. -/
def asciiBytes (s : String) : List Nat := s.data.map Char.toNat

/-- Data of a concatenation of strings is the concatenation of their data. -/
theorem string_data_append (a b : String) : (a ++ b).data = a.data ++ b.data := by
  cases a with
  | mk la =>
    cases b with
    | mk lb => rfl

/-- A string with nonempty data is not the empty string. -/
theorem ne_empty_of_data_ne_nil (s : String) (h : s.data ≠ []) : s ≠ "" := by
  intro he
  apply h
  rw [he]

/-- Appending to a string with nonempty data yields a nonempty string. -/
theorem append_ne_empty (a b : String) (h : a.data ≠ []) : a ++ b ≠ "" := by
  apply ne_empty_of_data_ne_nil
  rw [string_data_append]
  intro hc
  exact h (List.append_eq_nil.mp hc).1

/-- The head of `dropWhile p` does not satisfy `p`. -/
theorem dropWhile_head?_false {α : Type} (p : α → Bool) (l : List α) :
    ∀ a, (l.dropWhile p).head? = some a → p a = false := by
  induction l with
  | nil => intro a h; simp [List.dropWhile] at h
  | cons b t ih =>
    intro a h
    cases hb : p b with
    | true => rw [List.dropWhile_cons_of_pos hb] at h; exact ih a h
    | false =>
      rw [List.dropWhile_cons_of_neg (by simp [hb])] at h
      simp at h
      rw [← h]
      exact hb

/-- A list whose head does not satisfy `p` is unchanged by `dropWhile p`. -/
theorem dropWhile_eq_self_of_head {α : Type} (p : α → Bool) (l : List α)
    (h : ∀ a, l.head? = some a → p a = false) : l.dropWhile p = l := by
  cases l with
  | nil => rfl
  | cons b t => exact List.dropWhile_cons_of_neg (by simp [h b rfl])

/-- `dropWhile` is idempotent. -/
theorem dropWhile_idemp {α : Type} (p : α → Bool) (l : List α) :
    (l.dropWhile p).dropWhile p = l.dropWhile p :=
  dropWhile_eq_self_of_head p _ (dropWhile_head?_false p l)

/-- When `dropWhile p` keeps anything, it keeps the last element. -/
theorem getLast?_dropWhile_ne_nil {α : Type} (p : α → Bool) (l : List α)
    (h : l.dropWhile p ≠ []) : (l.dropWhile p).getLast? = l.getLast? := by
  induction l with
  | nil => simp [List.dropWhile] at h
  | cons b t ih =>
    cases hb : p b with
    | false => rw [List.dropWhile_cons_of_neg (by simp [hb])]
    | true =>
      rw [List.dropWhile_cons_of_pos hb] at h ⊢
      rw [ih h]
      cases t with
      | nil => simp [List.dropWhile] at h
      | cons c u => rw [List.getLast?_cons_cons]

/-- Stripping both ends is idempotent: a stripped list is already free of
leading and trailing elements satisfying `p`. -/
theorem stripEnds_idem {α : Type} (p : α → Bool) (l : List α) :
    stripEnds p (stripEnds p l) = stripEnds p l := by
  unfold stripEnds
  have h1 : ((l.dropWhile p).reverse.dropWhile p).reverse.dropWhile p
      = ((l.dropWhile p).reverse.dropWhile p).reverse := by
    apply dropWhile_eq_self_of_head
    intro a ha
    rw [List.head?_reverse] at ha
    by_cases hx : (l.dropWhile p).reverse.dropWhile p = []
    · rw [hx] at ha; simp at ha
    · rw [getLast?_dropWhile_ne_nil p _ hx, List.getLast?_reverse] at ha
      exact dropWhile_head?_false p l a ha
  rw [h1, List.reverse_reverse, dropWhile_idemp]

/-- Python `strip` is idempotent: a stripped string carries no leading or
trailing whitespace. -/
theorem pyStrip_idem (s : String) : pyStrip (pyStrip s) = pyStrip s :=
  congrArg String.mk (stripEnds_idem Char.isWhitespace s.data)

/-- Every word produced by the `split` pass contains no whitespace
character, provided the running accumulator contains none. -/
theorem splitWsAux_no_ws :
    ∀ (l acc : List Char), (∀ c ∈ acc, c.isWhitespace = false) →
      ∀ w ∈ splitWsAux l acc, ∀ c ∈ w, c.isWhitespace = false := by
  intro l
  induction l with
  | nil =>
    intro acc hacc w hw c hc
    by_cases ha : acc = []
    · simp [splitWsAux, ha] at hw
    · simp [splitWsAux, ha] at hw
      subst hw
      exact hacc c (List.mem_reverse.mp hc)
  | cons b t ih =>
    intro acc hacc w hw c hc
    simp only [splitWsAux] at hw
    split at hw
    · split at hw
      · exact ih [] (by intro x hx; cases hx) w hw c hc
      · cases hw with
        | head => exact hacc c (List.mem_reverse.mp hc)
        | tail _ hmem => exact ih [] (by intro x hx; cases hx) w hmem c hc
    · rename_i hbw
      refine ih (b :: acc) ?_ w hw c hc
      intro x hx
      cases hx with
      | head => simpa using hbw
      | tail _ hx2 => exact hacc x hx2

/-- On any failed result, `_format_result` returns the error-prefixed
message built from stderr, stdout, or the generic fallback. -/
theorem format_result_error (r : ExecutionResult) (ctx : String) (h : r.success = false) :
    format_result r ctx = "❌ Error: " ++
      (if r.stderr ≠ "" then r.stderr
       else if r.stdout ≠ "" then r.stdout else "Unknown error") := by
  unfold format_result
  rw [if_neg (by simp [h])]

/-- C1: on timeout, `_run_gtr` does return `success=false`, `returncode=-1`,
empty stdout and a stderr naming the command and the elapsed seconds — but
its `asyncio.TimeoutError` handler performs no child-terminating call
(`timeout_handler_kills_child = false`): `asyncio.wait_for` only cancels
`proc.communicate()`, so the subprocess is abandoned, not force-terminated. -/
theorem run_gtr_timeout_result (args : List String) (t : Nat) :
    run_gtr args t .timeout =
      { success := false
        stdout := ""
        stderr := "Command timed out after " ++ toString t ++ "s: "
            ++ joinSpace (["gtr"] ++ args)
        returncode := -1 } ∧
    timeout_handler_kills_child = false :=
  ⟨rfl, rfl⟩

/-- C2 counterexample: with `message_type = ""` the commit capability still
passes the `--type` flag with an empty-string value, and with `scope = ""`
the ask capability passes `--scope` with an empty-string value — so a
parameter whose value is empty can appear as a flag, contrary to the claim. -/
theorem empty_value_flag_counterexample :
    gitrama_commit_args "" "" "" = ["commit", "--type", "", "--yes"] ∧
    gitrama_ask_args "q" "" "" = ["ask", "q", "--scope", ""] :=
  ⟨rfl, rfl⟩

/-- C2 (amended): every truthiness-guarded optional parameter (context,
model, base, since, until, format, description) whose value is empty
contributes no flag to the argument vector, and ask's scope contributes no
flag at its default `auto`; the exceptions are commit's `message_type`
(always passed after `--type`) and ask's `scope` when non-`auto` but empty. -/
theorem omitted_flags_when_empty (mt q nm desc : String) :
    gitrama_commit_args mt "" "" = ["commit", "--type", mt, "--yes"] ∧
    gitrama_ask_args q "auto" "" = ["ask", q] ∧
    gitrama_branch_args nm "" = ["branch", nm] ∧
    gitrama_branch_suggest_args desc "" = ["branch", "--suggest", desc] ∧
    gitrama_pr_args "" "" = ["pr"] ∧
    gitrama_changelog_args "" "" "" "" = ["changelog"] ∧
    gitrama_stream_switch_args nm "" = ["stream", "switch", nm] :=
  ⟨rfl, rfl, rfl, rfl, rfl, rfl, rfl⟩

/-- C3: if the staging subprocess of the stage-and-commit composite fails to
launch, the tool returns the staging-specific error no matter what the
commit step would have produced (the commit capability is never invoked);
if staging launches, its output and return code are ignored and the result
is exactly that of the commit capability. -/
theorem stage_and_commit_short_circuit (files message_type context model e : String)
    (soutB serrB : List Nat) (src : Int) (co : ProcOutcome) :
    gitrama_stage_and_commit files message_type context model (.launchFailed e) co
        = "❌ Failed to stage files: " ++ e ∧
    gitrama_stage_and_commit files message_type context model
        (.launched soutB serrB src) co
        = gitrama_commit message_type context model co :=
  ⟨rfl, rfl⟩

/-- C4: when the executable cannot be located, `_run_gtr` returns (never
raises) `success=false`, `returncode=-1`, empty stdout and a stderr holding
the installation hint naming the missing dependency (`gitrama`) and its
source (`pip install gitrama`, docs link) — not a raw OS error. -/
theorem run_gtr_executable_not_found (args : List String) (t : Nat) :
    run_gtr args t .notFound =
      { success := false
        stdout := ""
        stderr := "gitrama CLI not found. Install with: pip install gitrama\nDocs: https://gitrama.ai"
        returncode := -1 } :=
  rfl

/-- C5: `_format_result` returns stdout verbatim on success with non-empty
stdout; a non-empty canned confirmation naming the action on success with
empty stdout; and on failure an error-prefixed message using stderr, falling
back to stdout, falling back to the generic unknown-error string. -/
theorem format_result_spec (r : ExecutionResult) (ctx : String) :
    (r.success = true → r.stdout ≠ "" → format_result r ctx = r.stdout) ∧
    (r.success = true → r.stdout = "" →
        format_result r ctx = "✅ " ++ (if ctx ≠ "" then ctx else "Done") ∧
        format_result r ctx ≠ "") ∧
    (r.success = false → r.stderr ≠ "" → format_result r ctx = "❌ Error: " ++ r.stderr) ∧
    (r.success = false → r.stderr = "" → r.stdout ≠ "" →
        format_result r ctx = "❌ Error: " ++ r.stdout) ∧
    (r.success = false → r.stderr = "" → r.stdout = "" →
        format_result r ctx = "❌ Error: Unknown error") := by
  refine ⟨?_, ?_, ?_, ?_, ?_⟩
  · intro hs ho; simp [format_result, hs, ho]
  · intro hs ho
    have he : format_result r ctx = "✅ " ++ (if ctx ≠ "" then ctx else "Done") := by
      simp [format_result, hs, ho]
    refine ⟨he, ?_⟩
    rw [he]
    exact append_ne_empty _ _ (by simp)
  · intro hs he; simp [format_result, hs, he]
  · intro hs he ho; simp [format_result, hs, he, ho]
  · intro hs he ho; simp [format_result, hs, he, ho]

/-- C5 witness: a failed result with empty stderr and stdout formats to the
generic unknown-error fallback. -/
theorem format_result_spec_witness :
    (ExecutionResult.mk false "" "" 1).success = false ∧
    format_result (ExecutionResult.mk false "" "" 1) "" = "❌ Error: Unknown error" :=
  ⟨rfl, (format_result_spec (ExecutionResult.mk false "" "" 1) "").2.2.2.2 rfl rfl rfl⟩

/-- C6: each error condition of the taxonomy — dependency missing, timeout,
non-zero exit, staging launch failure — is surfaced to the caller as an
error-prefixed formatted string returned by a total function; none is
propagated as a raised fault. -/
theorem gitrama_errors_surfaced (args : List String) (t : Nat) (ctx e : String)
    (rc : Int) (outB errB : List Nat) (hrc : rc ≠ 0)
    (files mt c2 m2 : String) (co : ProcOutcome) :
    (∃ m, format_result (run_gtr args t .notFound) ctx = "❌ Error: " ++ m) ∧
    (∃ m, format_result (run_gtr args t .timeout) ctx = "❌ Error: " ++ m) ∧
    (∃ m, format_result (run_gtr args t (.exited rc outB errB)) ctx = "❌ Error: " ++ m) ∧
    gitrama_stage_and_commit files mt c2 m2 (.launchFailed e) co
      = "❌ Failed to stage files: " ++ e := by
  refine ⟨⟨_, format_result_error _ _ rfl⟩, ⟨_, format_result_error _ _ rfl⟩,
    ⟨_, format_result_error _ _ ?_⟩, rfl⟩
  exact beq_eq_false_iff_ne.mpr hrc

/-- C6 witness: instantiated at a non-zero exit code. -/
theorem gitrama_errors_surfaced_witness :
    (1 : Int) ≠ 0 ∧
    (∃ m, format_result (run_gtr [] 120 (.exited 1 [] [])) "" = "❌ Error: " ++ m) :=
  ⟨by decide,
    (gitrama_errors_surfaced [] 120 "" "boom" 1 [] [] (by decide)
        "." "conventional" "" "" .timeout).2.2.1⟩

/-- C7: on a normal exit within the timeout, the result has
`success ↔ (returncode = 0)`, carries the return code through, and its
stdout/stderr are the raw bytes decoded by the total replacing decoder and
stripped of leading/trailing whitespace — stripping a second time changes
nothing. -/
theorem run_gtr_normal_exit (args : List String) (t : Nat) (rc : Int)
    (outB errB : List Nat) :
    ((run_gtr args t (.exited rc outB errB)).success = true ↔ rc = 0) ∧
    (run_gtr args t (.exited rc outB errB)).stdout = pyStrip (utf8DecodeReplace outB) ∧
    (run_gtr args t (.exited rc outB errB)).stderr = pyStrip (utf8DecodeReplace errB) ∧
    (run_gtr args t (.exited rc outB errB)).returncode = rc ∧
    pyStrip (run_gtr args t (.exited rc outB errB)).stdout
      = (run_gtr args t (.exited rc outB errB)).stdout ∧
    pyStrip (run_gtr args t (.exited rc outB errB)).stderr
      = (run_gtr args t (.exited rc outB errB)).stderr := by
  refine ⟨?_, rfl, rfl, rfl, ?_, ?_⟩
  · exact beq_iff_eq
  · exact pyStrip_idem (utf8DecodeReplace outB)
  · exact pyStrip_idem (utf8DecodeReplace errB)

/-- C8: the branch capability with name `add OAuth2 login` and default base
builds exactly `["branch", "add OAuth2 login"]`, contains no `--no-create`
flag, and on a successful run whose stdout bytes decode to
`feat/add-oauth2-login` returns exactly that string. -/
theorem gitrama_branch_example :
    gitrama_branch_args "add OAuth2 login" "" = ["branch", "add OAuth2 login"] ∧
    "--no-create" ∉ gitrama_branch_args "add OAuth2 login" "" ∧
    gitrama_branch "add OAuth2 login" ""
        (.exited 0 (asciiBytes "feat/add-oauth2-login") [])
      = "feat/add-oauth2-login" :=
  ⟨rfl, by decide, by decide⟩

/-- C9: whatever the values of `message_type`, `context` and `model`, the
commit capability's argument vector contains `--yes` and ends with it; no
parameter can suppress the auto-confirm flag. -/
theorem gitrama_commit_always_auto_confirms (message_type context model : String) :
    "--yes" ∈ gitrama_commit_args message_type context model ∧
    (gitrama_commit_args message_type context model).getLast? = some "--yes" := by
  constructor
  · unfold gitrama_commit_args
    exact List.mem_append_right _ (List.mem_singleton_self _)
  · unfold gitrama_commit_args
    exact List.getLast?_concat _

/-- C10: for `files ≠ "."`, the staged path list is the whitespace-split
token list of `files`, and every staged token is whitespace-free — so a
single path containing a space is always staged as several separate paths,
never as one. -/
theorem stage_file_list_splits_on_whitespace (files : String) (h : files ≠ ".") :
    stage_file_list files = pySplit files ∧
    ∀ w ∈ stage_file_list files, ∀ c ∈ w.data, c.isWhitespace = false := by
  have h1 : stage_file_list files = pySplit files := by
    unfold stage_file_list
    rw [if_pos h]
  refine ⟨h1, ?_⟩
  intro w hw c hc
  rw [h1] at hw
  unfold pySplit at hw
  obtain ⟨w2, hw2, rfl⟩ := List.mem_map.mp hw
  exact splitWsAux_no_ws files.data [] (by intro x hx; cases hx) w2 hw2 c hc

/-- C10 witness: a file name containing a space is split into two staged
paths. -/
theorem stage_file_list_splits_on_whitespace_witness :
    ("src/my file.txt" : String) ≠ "." ∧
    stage_file_list "src/my file.txt" = pySplit "src/my file.txt" ∧
    pySplit "src/my file.txt" = ["src/my", "file.txt"] :=
  ⟨by decide, (stage_file_list_splits_on_whitespace "src/my file.txt" (by decide)).1,
    by decide⟩
